import Mathlib

/-!
Verification of the hierarchical-transform core of `comp-graf`
(`src/comp-graf/Hierarchy/Hierarchy.js`): the matrix `Stack` class, the
`draw` traversal of the turbine body-part tree, the joint model and the
animation/key handlers (`rotate`, `changeRotSpeed`, `changeRotAnim`,
`scaleMoinho`, `handleKeyPress`).

Matrices are modelled as `Matrix (Fin 4) (Fin 4) ℚ` (cuon-matrix stores
column-major `Float32Array`s; we model the mathematical matrix, with
`a.multiply(b)`/`a.rotate(..)`/`a.translate(..)`/`a.scale(..)` as matrix
multiplication on the right, and the `setX` builders as the standard
transform matrices).  Trigonometric values (cosine/sine of an angle in
degrees) and the reciprocal length `1/sqrt(26)` of the one non-axis-aligned
rotation axis `(0,1,5)` are irrational, so they are carried as parameters
of the embedding in a `TrigEnv`; no claim depends on their actual values
beyond `cos 0 = 1` and `sin 0 = 0`.
-/

namespace Hierarchy

/-- 4×4 rational matrices, modelling cuon-matrix `Matrix4` values. -/
abbrev Mat := Matrix (Fin 4) (Fin 4) ℚ

/-- Environment of transcendental constants the source uses:
`tc a`/`ts a` stand for the cosine/sine of `a` degrees, and `rn` for the
reciprocal length `1/sqrt(0*0+1*1+5*5)` used by `setRotate`'s general
branch to normalize the axis `(0,1,5)`. -/
structure TrigEnv where
  tc : ℚ → ℚ
  ts : ℚ → ℚ
  rn : ℚ

/-- cuon-matrix `setTranslate(x, y, z)`. -/
def setTranslate (x y z : ℚ) : Mat :=
  !![1, 0, 0, x;
     0, 1, 0, y;
     0, 0, 1, z;
     0, 0, 0, 1]

/-- cuon-matrix `setScale(x, y, z)` (a diagonal matrix). -/
def setScale (x y z : ℚ) : Mat :=
  Matrix.diagonal ![x, y, z, 1]

/-- cuon-matrix `setRotate(angle, 0, 1, 0)` (the y-axis special case). -/
def setRotateY (env : TrigEnv) (angle : ℚ) : Mat :=
  let c := env.tc angle
  let s := env.ts angle
  !![c, 0, s, 0;
     0, 1, 0, 0;
     -s, 0, c, 0;
     0, 0, 0, 1]

/-- cuon-matrix `setRotate(angle, 0, 0, 1)` (the z-axis special case). -/
def setRotateZ (env : TrigEnv) (angle : ℚ) : Mat :=
  let c := env.tc angle
  let s := env.ts angle
  !![c, -s, 0, 0;
     s, c, 0, 0;
     0, 0, 1, 0;
     0, 0, 0, 1]

/-- cuon-matrix `setRotate(angle, 0, 1, 5)` (the general Rodrigues branch:
the axis is normalized by `1/len`, modelled by `env.rn`, giving components
`x = 0*rn`, `y = 1*rn`, `z = 5*rn`). -/
def setRotateAxis015 (env : TrigEnv) (angle : ℚ) : Mat :=
  let c := env.tc angle
  let s := env.ts angle
  let x : ℚ := 0 * env.rn
  let y : ℚ := 1 * env.rn
  let z : ℚ := 5 * env.rn
  let nc := 1 - c
  !![x * x * nc + c, x * y * nc - z * s, z * x * nc + y * s, 0;
     x * y * nc + z * s, y * y * nc + c, y * z * nc - x * s, 0;
     z * x * nc - y * s, y * z * nc + x * s, z * z * nc + c, 0;
     0, 0, 0, 1]

/-- The messages the source emits through `console.log` in the stack code
and in `draw`'s end-of-pass check. -/
inductive LogMsg where
  /-- `console.log("top = ", this.t)` in `Stack.top`. -/
  | showTop (t : Nat)
  /-- `console.log("Warning: stack underflow")` in `Stack.top`/`Stack.pop`. -/
  | stackUnderflow
  /-- `console.log("Warning: pops do not match pushes")` in `draw`. -/
  | popsDoNotMatchPushes
deriving DecidableEq

/-- JS array element assignment `l[i] = v`: overwrite in range, append at
the length, pad any gap with holes (read back as `undefined`, i.e. `none`). -/
def writeAt {α : Type} : List (Option α) → Nat → Option α → List (Option α)
  | [], 0, v => [v]
  | [], n + 1, v => none :: writeAt [] n v
  | _ :: xs, 0, v => v :: xs
  | x :: xs, n + 1, v => x :: writeAt xs n v

/-- The source's `Stack` class: `elements` is the JS array (entries may be
`undefined`, i.e. `none`) and `t` the top index.  `pushCount`/`popCount`
are ghost instrumentation counting how many times `push`/`pop` were
invoked; they influence nothing else. -/
structure Stack (M : Type) where
  elements : List (Option M)
  t : Nat
  pushCount : Nat
  popCount : Nat

/-- `new Stack()`: `this.elements = []; this.t = 0`. -/
def Stack.new {M : Type} : Stack M := ⟨[], 0, 0, 0⟩

/-- `push(m) { this.elements[this.t++] = m; }` -/
def Stack.push {M : Type} (s : Stack M) (m : M) : Stack M :=
  ⟨writeAt s.elements s.t (some m), s.t + 1, s.pushCount + 1, s.popCount⟩

/-- `top()`: on underflow logs `top = t` and a warning and falls through
(returning `undefined`); otherwise returns `this.elements[this.t - 1]`.
The second component is the list of `console.log` messages emitted. -/
def Stack.top {M : Type} (s : Stack M) : Option M × List LogMsg :=
  if s.t ≤ 0 then (none, [LogMsg.showTop s.t, LogMsg.stackUnderflow])
  else (s.elements.getD (s.t - 1) none, [])

/-- `pop()`: on underflow logs a warning and falls through (returning
`undefined`, stack contents untouched); otherwise decrements `t`, reads
the old top, overwrites that slot with `undefined` and returns it.
Components: returned value, stack afterwards, `console.log` messages. -/
def Stack.pop {M : Type} (s : Stack M) : Option M × Stack M × List LogMsg :=
  if s.t ≤ 0 then (none, { s with popCount := s.popCount + 1 }, [LogMsg.stackUnderflow])
  else
    let t' := s.t - 1
    let temp := s.elements.getD t' none
    (temp, ⟨writeAt s.elements t' none, t', s.pushCount, s.popCount + 1⟩, [])

/-- `isEmpty() { return this.t <= 0; }` -/
def Stack.isEmpty {M : Type} (s : Stack M) : Bool :=
  decide (s.t ≤ 0)

/-- A stack operation, for stating properties of arbitrary push/pop
sequences against the `Stack` class. -/
inductive Op (M : Type) where
  | push (m : M)
  | pop

/-- Run one operation on a stack (a `pop`'s return value is discarded). -/
def runOp {M : Type} (s : Stack M) : Op M → Stack M
  | Op.push m => s.push m
  | Op.pop => (s.pop).2.1

/-- Run a sequence of operations, first operation first. -/
def runOps {M : Type} (s : Stack M) (ops : List (Op M)) : Stack M :=
  ops.foldl runOp s

/-- Balanced (Dyck) sequences of stack operations: every `pop` exactly
closes an earlier `push`. -/
inductive Balanced {M : Type} : List (Op M) → Prop
  | nil : Balanced []
  | wrap {m : M} {ms ns : List (Op M)} :
      Balanced ms → Balanced ns → Balanced (Op.push m :: ms ++ Op.pop :: ns)

/-- The `joint` object of joint angles (degrees). -/
structure Joint where
  turbine : ℚ
  base : ℚ
  generator : ℚ
  rotor : ℚ
  blade : ℚ
  shoulder : ℚ
  arm : ℚ
  hand : ℚ

/-- The mutable globals of `Hierarchy.js` that the core reads and writes:
the joint angles, the animation flags, the five joint matrices, the five
local shape matrices and the model matrix. -/
structure St where
  joint : Joint
  rotDir : Bool
  rotSpeed : ℚ
  rotAnim : Bool
  turbineMatrix : Mat
  baseMatrix : Mat
  generatorMatrix : Mat
  rotorMatrix : Mat
  bladeMatrix : Mat
  turbineMatrixLocal : Mat
  baseMatrixLocal : Mat
  generatorMatrixLocal : Mat
  rotorMatrixLocal : Mat
  bladeMatrixLocal : Mat
  modelMatrix : Mat

/-- The initial value of `joint`. -/
def initJoint : Joint :=
  { turbine := 0, base := 0, generator := 0, rotor := 0, blade := 0,
    shoulder := 45, arm := 45, hand := 0 }

/-- The state right after the top-level initializers of `Hierarchy.js` ran:
each joint matrix is `setTranslate(..).rotate(angle, axis)` at the initial
angles, each local matrix a `setScale`, and `modelMatrix = new Matrix4()`
(the identity). -/
def St.init (env : TrigEnv) : St where
  joint := initJoint
  rotDir := false
  rotSpeed := 1
  rotAnim := true
  turbineMatrix := setTranslate 0 0 0 * setRotateY env initJoint.turbine
  baseMatrix := setTranslate 0 (-10) 0 * setRotateY env initJoint.base
  generatorMatrix := setTranslate 0 8 0 * setRotateY env initJoint.generator
  rotorMatrix := setTranslate 0 0 3 * setRotateAxis015 env initJoint.rotor
  bladeMatrix := setTranslate 0 0 0 * setRotateY env initJoint.blade
  turbineMatrixLocal := setScale 2 20 2
  baseMatrixLocal := setScale 5 1 5
  generatorMatrixLocal := setScale 3 3 5
  rotorMatrixLocal := setScale (6/5) (6/5) 1
  bladeMatrixLocal := setScale 20 (4/5) (4/5)
  modelMatrix := 1

/-- `changeRotAnim`: toggles the animation flag. -/
def changeRotAnim (st : St) : St :=
  { st with rotAnim := !st.rotAnim }

/-- `changeRotSpeed(n)`: clamps the speed at the floor 1, otherwise adds. -/
def changeRotSpeed (n : ℚ) (st : St) : St :=
  if st.rotSpeed + n < 1 then { st with rotSpeed := 1 }
  else { st with rotSpeed := st.rotSpeed + n }

/-- `scaleMoinho(factor)`: multiplies every local shape matrix on the
right by a uniform `scale(factor, factor, factor)`. -/
def scaleMoinho (factor : ℚ) (st : St) : St :=
  { st with
    turbineMatrixLocal := st.turbineMatrixLocal * setScale factor factor factor
    baseMatrixLocal := st.baseMatrixLocal * setScale factor factor factor
    generatorMatrixLocal := st.generatorMatrixLocal * setScale factor factor factor
    rotorMatrixLocal := st.rotorMatrixLocal * setScale factor factor factor
    bladeMatrixLocal := st.bladeMatrixLocal * setScale factor factor factor }

/-- The `rotate` arrow function (the per-frame animation tick): when
`rotAnim` holds, step `joint.rotor` by `rotSpeed` in the direction given
by `rotDir` and rebuild `rotorMatrix` as
`setTranslate(0,0,3) * (setTranslate(0,0,0) * rotate(rotor,0,0,1) * translate(0,0,0))`. -/
def rotate (env : TrigEnv) (st : St) : St :=
  if st.rotAnim then
    let r := if st.rotDir then st.joint.rotor + st.rotSpeed
             else st.joint.rotor - st.rotSpeed
    let currentNoseRot := setTranslate 0 0 0 * setRotateZ env r * setTranslate 0 0 0
    { st with
      joint := { st.joint with rotor := r }
      rotorMatrix := setTranslate 0 0 3 * currentNoseRot }
  else st

/-- `handleKeyPress`'s state effect, by key string.  (Each recognized key
additionally triggers `draw()`, which mutates nothing; the `default`
branch returns without drawing.) -/
def handleKeyPress (env : TrigEnv) (ch : String) (st : St) : St :=
  match ch with
  | "t" =>
    let a := st.joint.turbine + 15
    { st with joint := { st.joint with turbine := a }
              turbineMatrix := setTranslate 0 0 0 * setRotateY env a }
  | "T" =>
    let a := st.joint.turbine - 15
    { st with joint := { st.joint with turbine := a }
              turbineMatrix := setTranslate 0 0 0 * setRotateY env a }
  | "g" =>
    let a := st.joint.generator + 15
    { st with joint := { st.joint with generator := a }
              generatorMatrix := setTranslate 0 8 0 * setRotateY env a }
  | "G" =>
    let a := st.joint.generator - 15
    { st with joint := { st.joint with generator := a }
              generatorMatrix := setTranslate 0 8 0 * setRotateY env a }
  | "r" => { st with rotDir := false }
  | "R" => { st with rotDir := true }
  | "b" => changeRotSpeed (-1) st
  | "B" => changeRotSpeed 1 st
  | "o" => { st with rotSpeed := 1, rotDir := false }
  | " " => changeRotAnim st
  | "ArrowUp" => scaleMoinho (11/10) st
  | "ArrowDown" => scaleMoinho (9/10) st
  | _ => st

/-- `new Matrix4(src)`: copies a `Matrix4` argument, and yields the
identity when the argument is `undefined`. -/
def Matrix4new : Option Mat → Mat
  | some m => m
  | none => 1

/-- The core of the `renderCube` helper: reads the matrix on top of the
stack and computes the world transform
`current = new Matrix4(modelMatrix).multiply(new Matrix4(matrixStack.top()).multiply(matrixLocal))`
that is handed to the GPU as the `model` uniform.  Returns that matrix and
any `console.log` messages from the `top()` call (the GPU plumbing is the
out-of-scope renderer collaborator). -/
def renderCube (st : St) (matrixStack : Stack Mat) (matrixLocal : Mat) :
    Mat × List LogMsg :=
  let tp := matrixStack.top
  let current := Matrix4new tp.1 * matrixLocal
  let current2 := st.modelMatrix * current
  (current2, tp.2)

/-- The end-of-pass check at the bottom of `draw`:
`if (!s.isEmpty()) console.log("Warning: pops do not match pushes")`. -/
def endOfPassCheck (s : Stack Mat) : List LogMsg :=
  if !s.isEmpty then [LogMsg.popsDoNotMatchPushes] else []

/-- The observable outcome of one `draw()` pass: the world transforms sent
to the renderer (in draw order: turbine, base, generator, rotor, blade),
all `console.log` messages, and the stack at the end of the pass. -/
structure DrawOut where
  calls : List Mat
  logs : List LogMsg
  finalStack : Stack Mat

/-- The `draw` function: a fresh stack, then the unrolled depth-first walk
turbine { base {}, generator { rotor { blade {} } } } — push the parent
frame composed with the node's joint matrix, render with the node's local
shape matrix, pop after its subtree — followed by the end-of-pass
emptiness check. -/
def draw (st : St) : DrawOut :=
  let s1 := (Stack.new).push st.turbineMatrix
  let r1 := renderCube st s1 st.turbineMatrixLocal
  let tp2 := s1.top
  let s2 := s1.push (Matrix4new tp2.1 * st.baseMatrix)
  let r2 := renderCube st s2 st.baseMatrixLocal
  let p1 := s2.pop
  let s3 := p1.2.1
  let tp3 := s3.top
  let s4 := s3.push (Matrix4new tp3.1 * st.generatorMatrix)
  let r3 := renderCube st s4 st.generatorMatrixLocal
  let tp4 := s4.top
  let s5 := s4.push (Matrix4new tp4.1 * st.rotorMatrix)
  let r4 := renderCube st s5 st.rotorMatrixLocal
  let tp5 := s5.top
  let s6 := s5.push (Matrix4new tp5.1 * st.bladeMatrix)
  let r5 := renderCube st s6 st.bladeMatrixLocal
  let p2 := s6.pop
  let p3 := p2.2.1.pop
  let p4 := p3.2.1.pop
  let p5 := p4.2.1.pop
  let sEnd := p5.2.1
  { calls := [r1.1, r2.1, r3.1, r4.1, r5.1]
    logs := r1.2 ++ tp2.2 ++ r2.2 ++ p1.2.2 ++ tp3.2 ++ r3.2 ++ tp4.2 ++
      r4.2 ++ tp5.2 ++ r5.2 ++ p2.2.2 ++ p3.2.2 ++ p4.2.2 ++ p5.2.2 ++
      endOfPassCheck sEnd
    finalStack := sEnd }

/-- The states reachable from initialization by animation ticks, direction
keys (`r`/`R`), speed changes and animation toggles. -/
inductive Reach (env : TrigEnv) : St → Prop
  | init : Reach env (St.init env)
  | tick {st : St} : Reach env st → Reach env (rotate env st)
  | dirFalse {st : St} : Reach env st → Reach env (handleKeyPress env "r" st)
  | dirTrue {st : St} : Reach env st → Reach env (handleKeyPress env "R" st)
  | speed {st : St} (n : ℚ) : Reach env st → Reach env (changeRotSpeed n st)
  | anim {st : St} : Reach env st → Reach env (changeRotAnim st)

/-- A concrete trig environment (the one of angle-0 everywhere), used to
instantiate theorems whose hypotheses only constrain `tc 0` and `ts 0`. -/
def env0 : TrigEnv :=
  { tc := fun _ => 1, ts := fun _ => 0, rn := 0 }

theorem setTranslate_zero : setTranslate 0 0 0 = 1 := by
  decide

theorem setScale_mul (a b c d e f : ℚ) :
    setScale a b c * setScale d e f = setScale (a * d) (b * e) (c * f) := by
  have hv : (fun i => (![a, b, c, 1] : Fin 4 → ℚ) i * ![d, e, f, 1] i)
      = ![a * d, b * e, c * f, 1] := by
    funext i
    fin_cases i <;> simp
  unfold setScale
  rw [Matrix.diagonal_mul_diagonal, hv]

theorem setRotateZ_zero (env : TrigEnv) (h1 : env.tc 0 = 1) (h2 : env.ts 0 = 0) :
    setRotateZ env 0 = 1 := by
  unfold setRotateZ
  rw [h1, h2]
  decide

theorem setRotateAxis015_zero (env : TrigEnv) (h1 : env.tc 0 = 1)
    (h2 : env.ts 0 = 0) : setRotateAxis015 env 0 = 1 := by
  unfold setRotateAxis015
  rw [h1, h2]
  ext i j
  fin_cases i <;> fin_cases j <;>
    simp [Matrix.vecHead, Matrix.vecTail]

theorem getD_writeAt_eq {α : Type} (l : List (Option α)) (j : Nat) (v : Option α) :
    (writeAt l j v).getD j none = v := by
  induction l generalizing j with
  | nil =>
    induction j with
    | zero => rfl
    | succ n ih => simpa [writeAt] using ih
  | cons x xs ih =>
    cases j with
    | zero => rfl
    | succ n => simpa [writeAt] using ih n

theorem getD_writeAt_ne {α : Type} (l : List (Option α)) (i j : Nat) (v : Option α)
    (h : i ≠ j) : (writeAt l j v).getD i none = l.getD i none := by
  induction l generalizing i j with
  | nil =>
    induction j generalizing i with
    | zero =>
      cases i with
      | zero => exact absurd rfl h
      | succ m => simp [writeAt]
    | succ n ih =>
      cases i with
      | zero => simp [writeAt]
      | succ m =>
        have := ih m (fun hm => h (by omega))
        simpa [writeAt] using this
  | cons x xs ih =>
    cases j with
    | zero =>
      cases i with
      | zero => exact absurd rfl h
      | succ m => simp [writeAt]
    | succ n =>
      cases i with
      | zero => simp [writeAt]
      | succ m =>
        have := ih m n (fun hm => h (by omega))
        simpa [writeAt] using this

theorem runOps_append {M : Type} (s : Stack M) (xs ys : List (Op M)) :
    runOps s (xs ++ ys) = runOps (runOps s xs) ys :=
  List.foldl_append ..

theorem pop_t_of_pos {M : Type} (s : Stack M) (h : 0 < s.t) :
    ((s.pop).2.1).t = s.t - 1 := by
  unfold Stack.pop
  rw [if_neg (by omega)]

theorem balanced_t {M : Type} {ops : List (Op M)} (hb : Balanced ops) :
    ∀ s : Stack M, (runOps s ops).t = s.t := by
  induction hb with
  | nil => intro s; rfl
  | @wrap m ms ns _ _ ih1 ih2 =>
    intro s
    have h1 : runOps s (Op.push m :: ms ++ Op.pop :: ns)
        = runOps (runOps (s.push m) ms) (Op.pop :: ns) := by
      rw [List.cons_append, runOps, List.foldl_cons, ← runOps, runOps_append]
      rfl
    have h2 : (runOps (s.push m) ms).t = s.t + 1 := by
      rw [ih1]; rfl
    have h3 : runOps (runOps (s.push m) ms) (Op.pop :: ns)
        = runOps (((runOps (s.push m) ms).pop).2.1) ns := rfl
    rw [h1, h3, ih2, pop_t_of_pos _ (by omega), h2]
    omega

theorem top_of_pos {M : Type} (s : Stack M) (h : 0 < s.t) :
    s.top = (s.elements.getD (s.t - 1) none, []) := by
  unfold Stack.top
  rw [if_neg (by omega)]

theorem push_top {M : Type} (s : Stack M) (m : M) :
    (s.push m).top = (some m, []) := by
  have h1 : (s.push m).t = s.t + 1 := rfl
  have h2 : (s.push m).elements = writeAt s.elements s.t (some m) := rfl
  unfold Stack.top
  rw [h1, h2, if_neg (by omega), Nat.add_sub_cancel, getD_writeAt_eq]

theorem push_pop {M : Type} (s : Stack M) (m : M) :
    (s.push m).pop
      = (some m,
         ⟨writeAt (writeAt s.elements s.t (some m)) s.t none, s.t,
          s.pushCount + 1, s.popCount + 1⟩,
         []) := by
  have h1 : (s.push m).t = s.t + 1 := rfl
  have h2 : (s.push m).elements = writeAt s.elements s.t (some m) := rfl
  have h3 : (s.push m).pushCount = s.pushCount + 1 := rfl
  have h4 : (s.push m).popCount = s.popCount := rfl
  unfold Stack.pop
  rw [h1, h2, h3, h4, if_neg (by omega), Nat.add_sub_cancel]
  simp only [getD_writeAt_eq]

/-- C1: in a render pass the traversal composes the top of the stack with
each node's joint-local matrix into a new pushed matrix, renders with the
node's local shape transform, and pops after its children, so the world
transforms sent to the renderer are (in draw order)
`modelMatrix * turbineMatrix * turbineMatrixLocal` for the turbine,
`modelMatrix * turbineMatrix * baseMatrix * baseMatrixLocal` for the base,
`modelMatrix * turbineMatrix * generatorMatrix * generatorMatrixLocal` for
the generator, the same chain extended by `rotorMatrix * rotorMatrixLocal`
for the rotor, and
`modelMatrix * turbineMatrix * generatorMatrix * rotorMatrix * bladeMatrix * bladeMatrixLocal`
for the blade. -/
theorem C1_draw_world_transforms (st : St) : (draw st).calls =
    [st.modelMatrix * st.turbineMatrix * st.turbineMatrixLocal,
     st.modelMatrix * st.turbineMatrix * st.baseMatrix * st.baseMatrixLocal,
     st.modelMatrix * st.turbineMatrix * st.generatorMatrix * st.generatorMatrixLocal,
     st.modelMatrix * st.turbineMatrix * st.generatorMatrix * st.rotorMatrix *
       st.rotorMatrixLocal,
     st.modelMatrix * st.turbineMatrix * st.generatorMatrix * st.rotorMatrix *
       st.bladeMatrix * st.bladeMatrixLocal] := by
  calc (draw st).calls
      = [st.modelMatrix * (st.turbineMatrix * st.turbineMatrixLocal),
         st.modelMatrix * ((st.turbineMatrix * st.baseMatrix) * st.baseMatrixLocal),
         st.modelMatrix * ((st.turbineMatrix * st.generatorMatrix) * st.generatorMatrixLocal),
         st.modelMatrix * (((st.turbineMatrix * st.generatorMatrix) * st.rotorMatrix) *
           st.rotorMatrixLocal),
         st.modelMatrix * ((((st.turbineMatrix * st.generatorMatrix) * st.rotorMatrix) *
           st.bladeMatrix) * st.bladeMatrixLocal)] := rfl
    _ = _ := by simp [mul_assoc]

/-- C2: a full `draw` pass on a fresh stack performs exactly 5 pushes and
5 pops for the 5 body parts, the stack is empty before the first push and
empty again after the last pop (so no warning is logged), and the
end-of-pass check reports `pops do not match pushes` exactly when the
stack is non-empty at pass end. -/
theorem C2_draw_balance (st : St) :
    (Stack.new : Stack Mat).isEmpty = true
    ∧ (draw st).finalStack.pushCount = 5
    ∧ (draw st).finalStack.popCount = 5
    ∧ (draw st).finalStack.isEmpty = true
    ∧ (draw st).logs = []
    ∧ (∀ s : Stack Mat,
        LogMsg.popsDoNotMatchPushes ∈ endOfPassCheck s ↔ s.isEmpty = false) := by
  refine ⟨?_, ?_, ?_, ?_, ?_, ?_⟩
  · rfl
  · rfl
  · rfl
  · rfl
  · rfl
  · intro s
    by_cases h : s.isEmpty <;> simp [endOfPassCheck, h]

/-- C3: the `Stack` is a LIFO — after `push m`, `top` returns `m` and the
depth grew by one; a subsequent `pop` returns `m` and restores `top` to
its exact prior value (the previous top is not disturbed by the push,
which stores a separate element); `isEmpty` holds exactly at depth zero;
and running any balanced sequence of pushes and pops on a fresh stack
leaves it empty. -/
theorem C3_stack_lifo {M : Type} (s : Stack M) (m : M) (ops : List (Op M)) :
    ((s.push m).top).1 = some m
    ∧ (s.push m).t = s.t + 1
    ∧ ((s.push m).pop).1 = some m
    ∧ (((s.push m).pop).2.1).top = s.top
    ∧ (s.isEmpty = true ↔ s.t = 0)
    ∧ (Balanced ops → (runOps (Stack.new : Stack M) ops).isEmpty = true) := by
  refine ⟨?_, rfl, ?_, ?_, ?_, ?_⟩
  · rw [push_top]
  · rw [push_pop]
  · have e1 : (((s.push m).pop).2.1).t = s.t := by rw [push_pop]
    have e2 : (((s.push m).pop).2.1).elements
        = writeAt (writeAt s.elements s.t (some m)) s.t none := by rw [push_pop]
    by_cases h : s.t = 0
    · unfold Stack.top
      rw [e1, if_pos (show s.t ≤ 0 by omega), if_pos (show s.t ≤ 0 by omega)]
    · unfold Stack.top
      rw [e1, e2, if_neg (show ¬s.t ≤ 0 by omega), if_neg (show ¬s.t ≤ 0 by omega),
        getD_writeAt_ne _ _ _ _ (by omega), getD_writeAt_ne _ _ _ _ (by omega)]
  · unfold Stack.isEmpty
    simp
  · intro hb
    have h0 := balanced_t hb (Stack.new : Stack M)
    unfold Stack.isEmpty
    rw [h0]
    rfl

/-- C3 witness: on a fresh rational stack, a push of `0` followed by a pop
returns `0`, and the balanced sequence `[push 0, pop]` leaves it empty. -/
theorem C3_stack_lifo_witness :
    (((Stack.new : Stack ℚ).push 0).pop).1 = some 0
    ∧ (runOps (Stack.new : Stack ℚ) [Op.push 0, Op.pop]).isEmpty = true := by
  have h := C3_stack_lifo (Stack.new : Stack ℚ) 0 [Op.push 0, Op.pop]
  exact ⟨h.2.2.1, h.2.2.2.2.2 (Balanced.wrap Balanced.nil Balanced.nil)⟩

/-- C4: `top` and `pop` on an empty stack are total and non-fatal: `top`
logs `top = t` and an underflow warning and returns no value, and `pop`
logs an underflow warning, returns no value, and leaves the stack's depth
and stored elements unchanged. -/
theorem C4_underflow_nonfatal {M : Type} (s : Stack M) (h : s.isEmpty = true) :
    s.top = (none, [LogMsg.showTop s.t, LogMsg.stackUnderflow])
    ∧ (s.pop).1 = none
    ∧ (s.pop).2.2 = [LogMsg.stackUnderflow]
    ∧ ((s.pop).2.1).t = s.t
    ∧ ((s.pop).2.1).elements = s.elements := by
  have ht : s.t ≤ 0 := by simpa [Stack.isEmpty] using h
  simp [Stack.top, Stack.pop, ht]

/-- C4 witness: the fresh rational stack is empty, and `top`/`pop` on it
return `undefined` with the logged warnings, leaving depth and elements
untouched. -/
theorem C4_underflow_nonfatal_witness :
    (Stack.new : Stack ℚ).isEmpty = true
    ∧ (Stack.new : Stack ℚ).top
        = (none, [LogMsg.showTop 0, LogMsg.stackUnderflow])
    ∧ (((Stack.new : Stack ℚ).pop).2.1).elements = (Stack.new : Stack ℚ).elements := by
  have h := C4_underflow_nonfatal (Stack.new : Stack ℚ) rfl
  exact ⟨rfl, h.1, h.2.2.2.2⟩

/-- C5: in every state reachable from initialization by animation ticks,
direction reversals, speed changes (and animation toggles), `rotorMatrix`
equals the matrix rebuilt fresh from the base offset `translate(0,0,3)`
composed with the rotation by the current `joint.rotor` degrees, so two
histories ending at the same angle yield the identical matrix.  (Uses only
that the trig functions satisfy `cos 0 = 1` and `sin 0 = 0`.) -/
theorem C5_rotorMatrix_function_of_angle (env : TrigEnv)
    (h1 : env.tc 0 = 1) (h2 : env.ts 0 = 0) :
    (∀ st : St, Reach env st →
      st.rotorMatrix = setTranslate 0 0 3 * setRotateZ env st.joint.rotor)
    ∧ (∀ st st' : St, Reach env st → Reach env st' →
        st.joint.rotor = st'.joint.rotor → st.rotorMatrix = st'.rotorMatrix) := by
  have key : ∀ st : St, Reach env st →
      st.rotorMatrix = setTranslate 0 0 3 * setRotateZ env st.joint.rotor := by
    intro st hst
    induction hst with
    | init =>
      show setTranslate 0 0 3 * setRotateAxis015 env initJoint.rotor
          = setTranslate 0 0 3 * setRotateZ env initJoint.rotor
      rw [show initJoint.rotor = 0 from rfl, setRotateAxis015_zero env h1 h2,
        setRotateZ_zero env h1 h2]
    | tick hst ih =>
      rename_i st'
      by_cases ha : st'.rotAnim
      · simp only [rotate, ha, if_true]
        rw [setTranslate_zero, one_mul, mul_one]
      · simp only [rotate, ha, if_false]
        exact ih
    | dirFalse hst ih => exact ih
    | dirTrue hst ih => exact ih
    | speed n hst ih =>
      unfold changeRotSpeed
      split <;> exact ih
    | anim hst ih => exact ih
  refine ⟨key, fun st st' hst hst' hr => ?_⟩
  rw [key st hst, key st' hst', hr]

/-- C5 witness: with the angle-0 trig environment (whose `cos 0 = 1` and
`sin 0 = 0` hold definitionally), the initial state's `rotorMatrix` equals
the freshly rebuilt `translate(0,0,3) * rotateZ(joint.rotor)`. -/
theorem C5_rotorMatrix_function_of_angle_witness :
    (St.init env0).rotorMatrix
      = setTranslate 0 0 3 * setRotateZ env0 ((St.init env0).joint.rotor) :=
  (C5_rotorMatrix_function_of_angle env0 rfl rfl).1 _ Reach.init

/-- C6: while the animation is running, a tick changes `joint.rotor` by
exactly `rotSpeed * direction` with `direction = +1` when `rotDir` and
`-1` otherwise, and after reversing the direction (pressing the opposite
direction key) the next tick changes it by the negated delta. -/
theorem C6_tick_delta (env : TrigEnv) (st : St) (h : st.rotAnim = true) :
    (rotate env st).joint.rotor
      = st.joint.rotor + st.rotSpeed * (if st.rotDir then 1 else -1)
    ∧ (rotate env (handleKeyPress env (if st.rotDir then "r" else "R") st)).joint.rotor
      = st.joint.rotor + st.rotSpeed * (if st.rotDir then -1 else 1) := by
  rcases hd : st.rotDir <;>
    simp [rotate, handleKeyPress, h, hd] <;> ring

/-- C6 witness: from the initial state with the speed raised to 3 (running,
direction `false`), one tick applies the delta `3 * (-1)`, and a tick after
the direction reversal applies `3 * 1`. -/
theorem C6_tick_delta_witness :
    ((changeRotSpeed 2 (St.init env0)).rotAnim = true)
    ∧ (rotate env0 (changeRotSpeed 2 (St.init env0))).joint.rotor
        = (changeRotSpeed 2 (St.init env0)).joint.rotor
          + (changeRotSpeed 2 (St.init env0)).rotSpeed
            * (if (changeRotSpeed 2 (St.init env0)).rotDir then 1 else -1)
    ∧ (rotate env0 (handleKeyPress env0
        (if (changeRotSpeed 2 (St.init env0)).rotDir then "r" else "R")
        (changeRotSpeed 2 (St.init env0)))).joint.rotor
        = (changeRotSpeed 2 (St.init env0)).joint.rotor
          + (changeRotSpeed 2 (St.init env0)).rotSpeed
            * (if (changeRotSpeed 2 (St.init env0)).rotDir then -1 else 1) := by
  have h := C6_tick_delta env0 (changeRotSpeed 2 (St.init env0))
    (by norm_num [changeRotSpeed, St.init])
  exact ⟨by norm_num [changeRotSpeed, St.init], h.1, h.2⟩

/-- C7: toggling the animation off makes 10 consecutive ticks leave the
whole state (in particular the rotor angle and its local matrix)
unchanged; toggling it back on, a single tick changes the angle by exactly
`rotSpeed * directionSign`. -/
theorem C7_pause_resume (env : TrigEnv) (st : St) (h : st.rotAnim = true) :
    (rotate env)^[10] (changeRotAnim st) = changeRotAnim st
    ∧ (rotate env (changeRotAnim ((rotate env)^[10] (changeRotAnim st)))).joint.rotor
      = st.joint.rotor + st.rotSpeed * (if st.rotDir then 1 else -1) := by
  have hoff : (changeRotAnim st).rotAnim = false := by
    simp [changeRotAnim, h]
  have hfix : (rotate env)^[10] (changeRotAnim st) = changeRotAnim st :=
    Function.iterate_fixed (by simp [rotate, hoff]) 10
  refine ⟨hfix, ?_⟩
  rw [hfix]
  rcases hd : st.rotDir <;>
    simp [rotate, changeRotAnim, h, hd] <;> ring

/-- C7 witness: at the initial state (animation on), the paused 10-tick
run is the identity and the post-resume tick applies the signed delta. -/
theorem C7_pause_resume_witness :
    ((St.init env0).rotAnim = true)
    ∧ (rotate env0)^[10] (changeRotAnim (St.init env0)) = changeRotAnim (St.init env0)
    ∧ (rotate env0 (changeRotAnim
        ((rotate env0)^[10] (changeRotAnim (St.init env0))))).joint.rotor
        = (St.init env0).joint.rotor
          + (St.init env0).rotSpeed * (if (St.init env0).rotDir then 1 else -1) := by
  have h := C7_pause_resume env0 (St.init env0) rfl
  exact ⟨rfl, h.1, h.2⟩

/-- C8: `changeRotSpeed n` sets the speed to `rotSpeed + n` when that is
at least 1 and clamps it to 1 otherwise (so the speed never drops below
1), touching nothing else of the state; in particular from speed 1 an
adjustment of `-5` yields speed 1. -/
theorem C8_speed_clamp (st : St) (n : ℚ) (h : 1 ≤ st.rotSpeed) :
    changeRotSpeed n st
      = { st with rotSpeed := if 1 ≤ st.rotSpeed + n then st.rotSpeed + n else 1 }
    ∧ 1 ≤ (changeRotSpeed n st).rotSpeed := by
  unfold changeRotSpeed
  by_cases hc : st.rotSpeed + n < 1
  · rw [if_pos hc, if_neg (by linarith)]
    exact ⟨rfl, show (1 : ℚ) ≤ 1 by norm_num⟩
  · rw [if_neg hc, if_pos (by linarith)]
    exact ⟨rfl, show (1 : ℚ) ≤ st.rotSpeed + n by linarith⟩

/-- C8 witness: at the initial state, the speed is 1 and `changeRotSpeed (-5)`
silently clamps it to 1. -/
theorem C8_speed_clamp_witness :
    (1 ≤ (St.init env0).rotSpeed)
    ∧ changeRotSpeed (-5) (St.init env0)
        = { St.init env0 with
            rotSpeed := if 1 ≤ (St.init env0).rotSpeed + (-5)
                        then (St.init env0).rotSpeed + (-5) else 1 }
    ∧ 1 ≤ (changeRotSpeed (-5) (St.init env0)).rotSpeed := by
  have h := C8_speed_clamp (St.init env0) (-5) (by norm_num [St.init])
  exact ⟨by norm_num [St.init], h.1, h.2⟩

/-- C9: from the initial joint state (all angles zero except
`shoulder = 45` and `arm = 45`), pressing `t` sets `joint.turbine` to 15
and rebuilds `turbineMatrix` as `translate(0,0,0)` composed with a
15-degree rotation about the y axis, while every other joint angle and
every other joint matrix stay unchanged. -/
theorem C9_adjust_turbine (env : TrigEnv) :
    (handleKeyPress env "t" (St.init env)).joint.turbine = 15
    ∧ (handleKeyPress env "t" (St.init env)).turbineMatrix
        = setTranslate 0 0 0 * setRotateY env 15
    ∧ (handleKeyPress env "t" (St.init env)).joint.base = 0
    ∧ (handleKeyPress env "t" (St.init env)).joint.generator = 0
    ∧ (handleKeyPress env "t" (St.init env)).joint.rotor = 0
    ∧ (handleKeyPress env "t" (St.init env)).joint.blade = 0
    ∧ (handleKeyPress env "t" (St.init env)).joint.shoulder = 45
    ∧ (handleKeyPress env "t" (St.init env)).joint.arm = 45
    ∧ (handleKeyPress env "t" (St.init env)).joint.hand = 0
    ∧ (handleKeyPress env "t" (St.init env)).baseMatrix = (St.init env).baseMatrix
    ∧ (handleKeyPress env "t" (St.init env)).generatorMatrix
        = (St.init env).generatorMatrix
    ∧ (handleKeyPress env "t" (St.init env)).rotorMatrix = (St.init env).rotorMatrix
    ∧ (handleKeyPress env "t" (St.init env)).bladeMatrix = (St.init env).bladeMatrix := by
  norm_num [handleKeyPress, St.init, initJoint]

/-- C10: `scaleMoinho f` multiplies each of the five local shape matrices
on the right by the uniform `scale(f, f, f)` and leaves every joint angle,
joint matrix, the speed, direction and running flag unchanged; `ArrowUp`
and `ArrowDown` invoke it with factors 1.1 and 0.9; and repeated calls
compound multiplicatively (`scale g` then `scale f` is `scale (g*f)`). -/
theorem C10_scaleMoinho (env : TrigEnv) (st : St) (f g : ℚ) :
    (scaleMoinho f st).turbineMatrixLocal = st.turbineMatrixLocal * setScale f f f
    ∧ (scaleMoinho f st).baseMatrixLocal = st.baseMatrixLocal * setScale f f f
    ∧ (scaleMoinho f st).generatorMatrixLocal
        = st.generatorMatrixLocal * setScale f f f
    ∧ (scaleMoinho f st).rotorMatrixLocal = st.rotorMatrixLocal * setScale f f f
    ∧ (scaleMoinho f st).bladeMatrixLocal = st.bladeMatrixLocal * setScale f f f
    ∧ (scaleMoinho f st).joint = st.joint
    ∧ (scaleMoinho f st).turbineMatrix = st.turbineMatrix
    ∧ (scaleMoinho f st).baseMatrix = st.baseMatrix
    ∧ (scaleMoinho f st).generatorMatrix = st.generatorMatrix
    ∧ (scaleMoinho f st).rotorMatrix = st.rotorMatrix
    ∧ (scaleMoinho f st).bladeMatrix = st.bladeMatrix
    ∧ (scaleMoinho f st).rotSpeed = st.rotSpeed
    ∧ (scaleMoinho f st).rotDir = st.rotDir
    ∧ (scaleMoinho f st).rotAnim = st.rotAnim
    ∧ handleKeyPress env "ArrowUp" st = scaleMoinho (11/10) st
    ∧ handleKeyPress env "ArrowDown" st = scaleMoinho (9/10) st
    ∧ (scaleMoinho f (scaleMoinho g st)).turbineMatrixLocal
        = st.turbineMatrixLocal * setScale (g * f) (g * f) (g * f) := by
  refine ⟨rfl, rfl, rfl, rfl, rfl, rfl, rfl, rfl, rfl, rfl, rfl, rfl, rfl, rfl,
    rfl, rfl, ?_⟩
  show (st.turbineMatrixLocal * setScale g g g) * setScale f f f = _
  rw [mul_assoc, setScale_mul]

end Hierarchy
